import Mathlib

/-!
# Verification of the Charlotte Bar Deals backend (`src/backend/server.js`)

Shallow embedding of the backend's pure core: the recurrence expander used by
`POST /admin/events` and `POST /admin/import`, the `GET /events` filter
builder, the `insertEvent` / `PUT /admin/events/:id` persistence translation,
and the CSV-import line handling.

Modelling conventions:
* JS timestamps (`Date` values) are modelled as `Int` milliseconds since the
  epoch; `addDays`/`addWeeks` add fixed-length days (`dayMs`), matching the
  calendar arithmetic of the source on the boundary-aligned inputs the claims
  speak about.
* SQL `timestamp` comparisons of ISO-formatted `YYYY-MM-DD HH:MM:SS` strings
  coincide with lexicographic string order, so stored `start_time` values and
  the window bounds produced by `boundsFor` are compared with `jsLe`
  (character-wise lexicographic order).
* JS strings are Lean `String`s; the handful of library operations the server
  uses (`split`, `trim`, `toLowerCase`, truthiness, `parseFloat`) are defined
  here character-by-character so that every definition evaluates inside the
  kernel.  `toLowerCase`/`trim` are modelled on the ASCII range, which covers
  every input the server's own string literals and the claims use.
* Numbers flowing into SQL parameters are modelled as `ℚ`.
* The PostGIS `ST_DWithin` predicate is an external collaborator; the filter
  semantics is parameterised by an arbitrary function `dw` standing for it.
-/

namespace BarDeals

/-! ## Character-level models of the JS string operations used by the server -/

/-- Whitespace recognised by `String.prototype.trim` (ASCII portion). -/
def isWsC (c : Char) : Bool :=
  c = ' ' || c = '\t' || c = '\n' || c = '\r'

/-- Rebuild a `String` from its character list. -/
def ofChars (l : List Char) : String := ⟨l⟩

/-- `s.trim()`: drop leading and trailing whitespace. -/
def jsTrim (s : String) : String :=
  ofChars (((s.data.dropWhile isWsC).reverse.dropWhile isWsC).reverse)

/-- ASCII lower-casing of one character (model of `toLowerCase` / SQL `LOWER`). -/
def toLowerC (c : Char) : Char :=
  if 'A' ≤ c && c ≤ 'Z' then Char.ofNat (c.toNat + 32) else c

/-- `s.toLowerCase()` restricted to ASCII. -/
def jsToLower (s : String) : String := ofChars (s.data.map toLowerC)

/-- Helper for `String.prototype.split` with a one-character separator. -/
def splitCharAux (sep : Char) : List Char → List Char → List String
  | acc, [] => [ofChars acc.reverse]
  | acc, c :: rest =>
    if c = sep then ofChars acc.reverse :: splitCharAux sep [] rest
    else splitCharAux sep (c :: acc) rest

/-- `s.split(sep)` for a one-character separator (`","` in the server).
`"".split(",")` is `[""]`, exactly as in JS. -/
def jsSplitChar (sep : Char) (s : String) : List String :=
  splitCharAux sep [] s.data

/-- Helper for splitting on the regex `/\r?\n/` used by the CSV import. -/
def splitLinesAux : List Char → List Char → List String
  | acc, [] => [ofChars acc.reverse]
  | acc, '\r' :: '\n' :: rest => ofChars acc.reverse :: splitLinesAux [] rest
  | acc, '\n' :: rest => ofChars acc.reverse :: splitLinesAux [] rest
  | acc, c :: rest => splitLinesAux (c :: acc) rest

/-- `csv.split(/\r?\n/)` from the import handler. -/
def splitLines (s : String) : List String := splitLinesAux [] s.data

/-- Lexicographic order on character lists; for equal-length ISO timestamp
strings this is exactly SQL `timestamp` order. -/
def lexLe : List Char → List Char → Bool
  | [], _ => true
  | _ :: _, [] => false
  | a :: as, b :: bs =>
    if a < b then true
    else if a = b then lexLe as bs
    else false

/-- `s <= t` as the storage collaborator compares timestamp strings. -/
def jsLe (s t : String) : Bool := lexLe s.data t.data

/-- JS truthiness of an optional query-string value: present and non-empty. -/
def truthyO : Option String → Bool
  | some s => s ≠ ""
  | Option.none => false

/-- `x || null` on an optional string field: empty string collapses to null. -/
def orNull : Option String → Option String
  | some s => if s = "" then Option.none else some s
  | Option.none => Option.none

/-- Model of JS `parseFloat` for plain decimal literals: skip leading
whitespace, optional sign, integer digits, optional `.` and fraction digits;
`Option.none` stands for `NaN` (no digit parsed).  Exponents are not modelled;
no input considered here uses them. -/
def parseFloatL (l : List Char) : Option ℚ :=
  let l1 := l.dropWhile isWsC
  let signed : ℚ × List Char :=
    match l1 with
    | '-' :: r => (-1, r)
    | '+' :: r => (1, r)
    | _ => (1, l1)
  let ip := signed.2.takeWhile Char.isDigit
  let rest := signed.2.dropWhile Char.isDigit
  let fp : List Char :=
    match rest with
    | '.' :: r => r.takeWhile Char.isDigit
    | _ => []
  if ip.isEmpty && fp.isEmpty then Option.none
  else
    let ipv : Nat := ip.foldl (fun a c => a * 10 + (c.toNat - 48)) 0
    let fpv : Nat := fp.foldl (fun a c => a * 10 + (c.toNat - 48)) 0
    some (signed.1 * ((ipv : ℚ) + (fpv : ℚ) / (10 ^ fp.length)))

/-- `parseFloat(s)`, `Option.none` playing the role of `NaN`. -/
def parseFloatQ (s : String) : Option ℚ := parseFloatL s.data

/-- First-occurrence de-duplication, as `[...new Set(xs)]` performs in JS
(insertion order, first occurrence kept). -/
def jsDedupAux (seen : List String) : List String → List String
  | [] => []
  | a :: l => if a ∈ seen then jsDedupAux seen l else a :: jsDedupAux (a :: seen) l

/-- `[...new Set(xs)]`. -/
def jsDedup (l : List String) : List String := jsDedupAux [] l

/-! ## Recurrence expander (`POST /admin/events` lines 231-256 and
`POST /admin/import` lines 361-386 of `server.js`; the two loops are
textually identical). -/

/-- One JS day in milliseconds; `addDays(d, n)` advances `n` of these. -/
def dayMs : Int := 86400000

/-- `addDays(d, n)` from the server helpers. -/
def addDaysI (d n : Int) : Int := d + n * dayMs

/-- `addWeeks(d, n) = addDays(d, n * 7)` from the server helpers. -/
def addWeeksI (d n : Int) : Int := addDaysI d (n * 7)

/-- `recurrence` values distinguished by the handlers. Any other string
behaves as `none` in the source (both the `until` default and the `step`
selection fall through), so the three-valued type is faithful. -/
inductive Recurrence where
  | none
  | daily
  | weekly
deriving DecidableEq, Repr

/-- The default `until` bound when `recurrence_until` is absent:
`daily ↦ addDays(start, 30)`, `weekly ↦ addWeeks(start, 8)`, else `start`. -/
def defaultUntil (start : Int) : Recurrence → Int
  | .daily => addDaysI start 30
  | .weekly => addWeeksI start 8
  | .none => start

/-- The per-instance step: `daily` advances `addDays(·, 1)` (one `dayMs`),
`weekly` advances `addWeeks(·, 1)` (seven `dayMs`), `none` has no step
function. -/
def stepSize : Recurrence → Option Int
  | .daily => some dayMs
  | .weekly => some (7 * dayMs)
  | .none => Option.none

/-- One expanded instance `{start, end}` (the source's `end` field is named
`stop` here because `end` is reserved in Lean). -/
structure Inst where
  start : Int
  stop : Option Int
deriving DecidableEq, Repr

/-- The `while (currentStart <= until)` loop.  The source pushes, steps both
cursors, and only then checks `if (instances.length > 200) break`, so a run
that entered the loop with 200 instances already pushed still pushes a 201st
before breaking.  `rem` is the remaining push budget after the current
iteration: the loop is entered with `rem = 200`, and `rem = 0` corresponds to
`instances.length = 200` at the top of an iteration, where one final push
happens and the `> 200` check fires. -/
def expandLoop (stepD u : Int) : Int → Option Int → Nat → List Inst
  | cs, ce, 0 => if cs ≤ u then [⟨cs, ce⟩] else []
  | cs, ce, rem + 1 =>
    if cs ≤ u then ⟨cs, ce⟩ :: expandLoop stepD u (cs + stepD) (ce.map (· + stepD)) rem
    else []

/-- The full recurrence expansion of the create/import handlers: compute the
effective `until`, pick the step, emit a single `{start, end}` instance when
there is no step, otherwise run the capped loop. -/
def expand (start : Int) (stop : Option Int) (rec : Recurrence)
    (untilOpt : Option Int) : List Inst :=
  let u := untilOpt.getD (defaultUntil start rec)
  match stepSize rec with
  | Option.none => [⟨start, stop⟩]
  | some stepD => expandLoop stepD u start stop 200

/-- The instance emitted at iteration `i` of the loop: both cursors advanced
by `i` steps. -/
def instAt (cs : Int) (ce : Option Int) (stepD : Int) (i : Nat) : Inst :=
  ⟨cs + (i : Int) * stepD, ce.map (· + (i : Int) * stepD)⟩

/-- Number of instances the loop emits: one per multiple of `stepD` that keeps
the cursor within `u`, capped at `rem + 1` pushes. -/
def iterCount (stepD u cs : Int) (rem : Nat) : Nat :=
  if cs ≤ u then min ((u - cs).toNat / stepD.toNat + 1) (rem + 1) else 0

lemma iterCount_succ (stepD : Int) (hs : 0 < stepD) (u cs : Int) (rem : Nat)
    (h : cs ≤ u) :
    iterCount stepD u cs (rem + 1) = iterCount stepD u (cs + stepD) rem + 1 := by
  unfold iterCount
  by_cases h2 : cs + stepD ≤ u
  · rw [if_pos h, if_pos h2]
    have key : (u - cs).toNat = (u - (cs + stepD)).toNat + stepD.toNat := by omega
    rw [key, Nat.add_div_right _ (by omega : 0 < stepD.toNat)]
    omega
  · rw [if_pos h, if_neg h2]
    have hlt : (u - cs).toNat < stepD.toNat := by omega
    rw [Nat.div_eq_of_lt hlt]
    omega

lemma instAt_zero (cs : Int) (ce : Option Int) (stepD : Int) :
    instAt cs ce stepD 0 = ⟨cs, ce⟩ := by
  cases ce <;> simp [instAt]

lemma instAt_succ (cs : Int) (ce : Option Int) (stepD : Int) (i : Nat) :
    instAt (cs + stepD) (ce.map (· + stepD)) stepD i = instAt cs ce stepD (i + 1) := by
  cases ce with
  | none => simp only [instAt, Option.map_none']; rw [Inst.mk.injEq]
            refine ⟨by push_cast; ring, rfl⟩
  | some e => simp only [instAt, Option.map_some']; rw [Inst.mk.injEq]
              refine ⟨by push_cast; ring, ?_⟩
              rw [Option.some.injEq]; push_cast; ring

/-- Closed form of the capped recurrence loop: it emits exactly
`iterCount stepD u cs rem` instances, the `i`-th one with both cursors
advanced by `i` steps. -/
lemma expandLoop_closed (stepD : Int) (hs : 0 < stepD) (u : Int) (rem : Nat) :
    ∀ (cs : Int) (ce : Option Int),
      expandLoop stepD u cs ce rem
        = (List.range (iterCount stepD u cs rem)).map (instAt cs ce stepD) := by
  induction rem with
  | zero =>
    intro cs ce
    unfold expandLoop iterCount
    by_cases h : cs ≤ u
    · rw [if_pos h, if_pos h]
      have hmin : min ((u - cs).toNat / stepD.toNat + 1) (0 + 1) = 1 :=
        Nat.min_eq_right (Nat.succ_le_succ (Nat.zero_le _))
      rw [hmin, show List.range 1 = [0] from rfl]
      simp [instAt_zero]
    · rw [if_neg h, if_neg h]
      simp only [List.range_zero, List.map_nil]
  | succ rem ih =>
    intro cs ce
    rw [show expandLoop stepD u cs ce (rem + 1)
          = if cs ≤ u then
              ⟨cs, ce⟩ :: expandLoop stepD u (cs + stepD) (ce.map (· + stepD)) rem
            else [] from rfl]
    by_cases h : cs ≤ u
    · rw [if_pos h, ih, iterCount_succ stepD hs u cs rem h,
        List.range_succ_eq_map, List.map_cons, List.map_map, instAt_zero]
      congr 1
      apply List.map_congr_left
      intro i _
      exact instAt_succ cs ce stepD i
    · rw [if_neg h]
      unfold iterCount
      rw [if_neg h]
      simp only [List.range_zero, List.map_nil]

set_option maxRecDepth 40000 in
/-- Claim C1, counterexample: with daily recurrence and `until` 300 days past
`start`, the expansion emits 201 instances, so the claimed bound of 200 fails.
The loop pushes an instance and only afterwards checks
`if (instances.length > 200) break`, letting a 201st instance through. -/
theorem c1_cap_counterexample :
    ¬ ((expand 0 Option.none Recurrence.daily (some (addDaysI 0 300))).length ≤ 200) := by
  decide

/-- Claim C1 (amended): for every start, optional end, recurrence mode and
until bound, the recurrence expansion in event creation and CSV import
produces at most 201 instances (the `> 200` check runs after pushing, so one
instance beyond 200 can be emitted before the loop breaks). -/
theorem c1_cap_at_most_201 (start : Int) (stop : Option Int) (rec : Recurrence)
    (untilOpt : Option Int) : (expand start stop rec untilOpt).length ≤ 201 := by
  cases rec with
  | none => simp [expand, stepSize]
  | daily =>
    simp only [expand, stepSize]
    rw [expandLoop_closed dayMs (by decide)]
    simp only [List.length_map, List.length_range]
    unfold iterCount
    split <;> omega
  | weekly =>
    simp only [expand, stepSize]
    rw [expandLoop_closed (7 * dayMs) (by decide)]
    simp only [List.length_map, List.length_range]
    unfold iterCount
    split <;> omega

/-- Claim C7: weekly recurrence with no explicit `until` defaults the bound to
`start + 8` weeks and expands to exactly 9 instances, the `i`-th stepping both
`start` and (when given) `end` by `i` times 7 days. -/
theorem c7_weekly_default (start : Int) (stop : Option Int) :
    expand start stop Recurrence.weekly Option.none
        = (List.range 9).map (instAt start stop (7 * dayMs))
      ∧ (expand start stop Recurrence.weekly Option.none).length = 9
      ∧ defaultUntil start Recurrence.weekly = start + 8 * (7 * dayMs) := by
  have hu : defaultUntil start Recurrence.weekly = start + 56 * dayMs := by
    simp only [defaultUntil, addWeeksI, addDaysI]
    ring
  have h1 : expand start stop Recurrence.weekly Option.none
      = (List.range 9).map (instAt start stop (7 * dayMs)) := by
    simp only [expand, stepSize, Option.getD]
    rw [expandLoop_closed (7 * dayMs) (by decide), hu]
    have hc : iterCount (7 * dayMs) (start + 56 * dayMs) start 200 = 9 := by
      unfold iterCount
      have hd : dayMs = 86400000 := rfl
      rw [if_pos (by omega)]
      have h56 : (start + 56 * dayMs - start).toNat = 4838400000 := by omega
      rw [h56]
      decide
    rw [hc]
  refine ⟨h1, by rw [h1]; simp, by rw [hu]; ring⟩

/-- Claim C8: when `until < start`, recurrence `none` still emits the single
instance `{start, end}` (the bound is ignored), while `daily` and `weekly`
emit nothing. -/
theorem c8_until_before_start (start u : Int) (stop : Option Int) (h : u < start) :
    expand start stop Recurrence.none (some u) = [⟨start, stop⟩]
      ∧ expand start stop Recurrence.daily (some u) = []
      ∧ expand start stop Recurrence.weekly (some u) = [] := by
  refine ⟨by simp [expand, stepSize], ?_, ?_⟩
  · simp only [expand, stepSize, Option.getD]
    rw [expandLoop_closed dayMs (by decide)]
    unfold iterCount
    rw [if_neg (by omega)]
    simp
  · simp only [expand, stepSize, Option.getD]
    rw [expandLoop_closed (7 * dayMs) (by decide)]
    unfold iterCount
    rw [if_neg (by omega)]
    simp

/-- Witness for C8 at `start = 1`, `until = 0`. -/
theorem c8_until_before_start_witness :
    expand 1 Option.none Recurrence.none (some 0) = [⟨1, Option.none⟩]
      ∧ expand 1 Option.none Recurrence.daily (some 0) = []
      ∧ expand 1 Option.none Recurrence.weekly (some 0) = [] :=
  c8_until_before_start 1 0 Option.none (by decide)

/-! ## Event rows and the store adapter (`insertEvent`, lines 40-54;
coordinate decoding of the `SELECT` read paths, lines 107-114, 204-211,
315-320; `PUT /admin/events/:id`, lines 286-300). -/

/-- A persisted `events` row, with the columns the handlers read and write.
`location` is the stored geography value, modelled as the `(longitude,
latitude)` pair it was built from (`ST_MakePoint(lon, lat)`); `id` is
storage-assigned and plays no role in the translated logic. -/
structure EventRow where
  name : String
  type : String
  description : Option String
  address_name : Option String
  address : Option String
  location : Option (ℚ × ℚ)
  start_time : String
  end_time : Option String
deriving DecidableEq, Repr

/-- The record handed to `insertEvent`: resolved coordinates plus the
scalar fields. -/
structure EventInput where
  name : String
  type : String
  description : Option String
  address_name : Option String
  address : Option String
  lat : Option ℚ
  lon : Option ℚ
  start_time : String
  end_time : Option String
deriving DecidableEq, Repr

/-- `insertEvent(ev)`: persists `NULL` for the location unless both `lat` and
`lon` are non-null, in which case the geography value is built from
`ST_MakePoint(lon, lat)` — longitude first.  `description`, `address_name`,
`address` and `end_time` collapse `'' `/absent to null via `x || null`. -/
def insertEvent (ev : EventInput) : EventRow where
  name := ev.name
  type := ev.type
  description := orNull ev.description
  address_name := orNull ev.address_name
  address := orNull ev.address
  location :=
    match ev.lat, ev.lon with
    | some la, some lo => some (lo, la)
    | _, _ => Option.none
  start_time := ev.start_time
  end_time := orNull ev.end_time

/-- Read-path decoding used by every `SELECT`:
`ST_X(...) AS lon, ST_Y(...) AS lat`; a `NULL` location decodes to
`(NULL, NULL)`. -/
def decodeLoc : Option (ℚ × ℚ) → Option ℚ × Option ℚ
  | some (lo, la) => (some lo, some la)
  | Option.none => (Option.none, Option.none)

/-- The body of `PUT /admin/events/:id` after validation. -/
structure UpdateInput where
  name : String
  type : String
  description : Option String
  address_name : Option String
  address : Option String
  start_time : String
  end_time : Option String
deriving DecidableEq, Repr

/-- The optional `, location = ST_SetSRID(ST_MakePoint($8, $9), 4326)` clause
of the `UPDATE`: present exactly when the geo resolution produced both
coordinates, and built longitude-first. -/
def putSetLocation (geoLat geoLon : Option ℚ) : Option (ℚ × ℚ) :=
  match geoLat, geoLon with
  | some la, some lo => some (lo, la)
  | _, _ => Option.none

/-- Effect of the `UPDATE` statement on the addressed row: the seven scalar
columns are always rewritten; `location` is rewritten only when the
`setLoc` clause is present, otherwise the stored value is untouched. -/
def applyPut (inp : UpdateInput) (geoLat geoLon : Option ℚ) (row : EventRow) :
    EventRow where
  name := inp.name
  type := inp.type
  description := orNull inp.description
  address_name := orNull inp.address_name
  address := orNull inp.address
  location :=
    match putSetLocation geoLat geoLon with
    | some p => some p
    | Option.none => row.location
  start_time := inp.start_time
  end_time := orNull inp.end_time

/-! ## The `GET /events` filter builder (lines 72-144). -/

/-- The query-string inputs of `GET /events`.  `types`, `type` and the
`types[]` key may each be absent (`[]`), a scalar (`[s]`) or repeated (longer
lists), exactly the shapes the handler's `[].concat(...)` normalisation
accepts; the remaining parameters are single optional values. -/
structure EventsQuery where
  types : List String
  type : List String
  typesArr : List String
  lat : Option String
  lng : Option String
  radius : Option String
  date : Option String
  timeOfDay : Option String
deriving Repr

/-- The normalised type set (lines 78-93): concatenate the three sources,
split each item on commas, trim, drop empties, lower-case, de-duplicate via
`[...new Set(...)]`. -/
def buildTypes (q : EventsQuery) : List String :=
  let raw := q.types ++ q.type ++ q.typesArr
  let ts := (raw.map (jsSplitChar ',')).flatten
  jsDedup (((ts.map jsTrim).filter (fun s => s ≠ "")).map jsToLower)

/-- The type clause `LOWER(type) = ANY($n::text[])`, added only when the set
is non-empty (lines 117-120). -/
def typeCond (typesList : List String) (ty : String) : Bool :=
  if typesList.isEmpty then true else typesList.contains (jsToLower ty)

/-- `boundsFor(d, tod)` (lines 97-104): the day window `[d 00:00:00,
d 23:59:59]`, narrowed by the lower-cased time-of-day bucket. -/
def boundsFor (d : String) (tod : Option String) : String × String :=
  let t := jsToLower (tod.getD "")
  let se : String × String :=
    if t = "morning" then ("05:00:00", "11:59:59")
    else if t = "afternoon" then ("12:00:00", "16:59:59")
    else if t = "evening" then ("17:00:00", "23:59:59")
    else ("00:00:00", "23:59:59")
  (d ++ " " ++ se.1, d ++ " " ++ se.2)

/-- The date clause `start_time >= $from AND start_time <= $to` (line 126). -/
def windowCond (d : String) (tod : Option String) (st : String) : Bool :=
  let b := boundsFor d tod
  jsLe b.1 st && jsLe st b.2

/-- Date versus future-only branch (lines 123-129): a truthy `date` installs
the window clause, otherwise `start_time >= NOW()`. -/
def dateOrFutureCond (q : EventsQuery) (now : String) (st : String) : Bool :=
  if truthyO q.date then windowCond (q.date.getD "") q.timeOfDay st
  else jsLe now st

/-- The guard `if (lat && lng && radius)` (line 132): the radius clause is
appended exactly when all three raw query values are truthy (present and
non-empty); their numeric validity is not consulted. -/
def radiusApplied (q : EventsQuery) : Bool :=
  truthyO q.lat && truthyO q.lng && truthyO q.radius

/-- The miles→meters conversion factor the handler hard-codes (line 133). -/
def mileMeters : ℚ := 1609.34

/-- The third radius parameter, `parseFloat(radius) * 1609.34`
(`Option.none` = `NaN`). -/
def metersParam (q : EventsQuery) : Option ℚ :=
  (parseFloatQ (q.radius.getD "")).map (fun r => r * mileMeters)

/-- The radius clause `location IS NOT NULL AND ST_DWithin(location,
ST_SetSRID(ST_MakePoint($lng, $lat), 4326)::geography, $meters)`
(lines 134-138).  `dw` abstracts the PostGIS distance predicate; it receives
the stored point, the `(lng, lat)` centre as parsed, and the meters value. -/
def radiusCond (q : EventsQuery)
    (dw : ℚ × ℚ → Option ℚ × Option ℚ → Option ℚ → Bool) (st : EventRow) : Bool :=
  if radiusApplied q then
    match st.location with
    | some p => dw p (parseFloatQ (q.lng.getD ""), parseFloatQ (q.lat.getD "")) (metersParam q)
    | Option.none => false
  else true

/-- The complete `WHERE` predicate built by `GET /events` (the `1=1` seed
conjoined with the three optional clauses). -/
def eventsWhere (q : EventsQuery) (now : String)
    (dw : ℚ × ℚ → Option ℚ × Option ℚ → Option ℚ → Bool) (st : EventRow) : Bool :=
  typeCond (buildTypes q) st.type && dateOrFutureCond q now st.start_time
    && radiusCond q dw st

/-! ## CSV import (`POST /admin/import`, lines 330-398). -/

/-- `csv.split(/\r?\n/).filter(Boolean)`: the non-empty lines of the body. -/
def filteredLines (s : String) : List String :=
  (splitLines s).filter (fun l => l ≠ "")

/-- `lines.shift().split(",").map(h => h.trim().toLowerCase())`. -/
def parseHeader (h : String) : List String :=
  ((jsSplitChar ',' h).map jsTrim).map jsToLower

/-- The columns the import rejects the whole body without. -/
def requiredCols : List String := ["name", "type", "start_time"]

/-- Outcome of the import endpoint: a 400 with its message, or
`{success: true, inserted}`. -/
inductive ImportResp where
  | badRequest (msg : String)
  | ok (inserted : Nat)
deriving DecidableEq, Repr

/-- The import handler's control flow: reject an all-blank body, parse the
first non-empty line as the header, reject on a missing required column, then
insert the expansion of every remaining line.  Each data line's insertion
count calls the geocoder and the runtime date parser, both external
collaborators, so it is abstracted as `instCount header line`; every property
proved below holds for all such functions. -/
def importResp (instCount : List String → String → Nat) (body : String) :
    ImportResp :=
  match filteredLines body with
  | [] => .badRequest "Empty CSV"
  | h :: rest =>
    let header := parseHeader h
    match requiredCols.find? (fun r => !(header.contains r)) with
    | some r => .badRequest ("Missing column: " ++ r)
    | Option.none => .ok ((rest.map (instCount header)).sum)

/-! ## Helper lemmas about the JS set de-duplication. -/

lemma mem_jsDedupAux (s : String) (l : List String) :
    ∀ seen, s ∈ jsDedupAux seen l ↔ (s ∈ l ∧ s ∉ seen) := by
  induction l with
  | nil => intro seen; simp [jsDedupAux]
  | cons a l ih =>
    intro seen
    unfold jsDedupAux
    by_cases h : a ∈ seen
    · rw [if_pos h, ih seen]
      by_cases hsa : s = a
      · subst hsa; simp only [List.mem_cons]; tauto
      · simp only [List.mem_cons]; tauto
    · rw [if_neg h, List.mem_cons, ih (a :: seen)]
      by_cases hsa : s = a
      · subst hsa; simp only [List.mem_cons]; tauto
      · simp only [List.mem_cons]; tauto

lemma mem_jsDedup (s : String) (l : List String) : s ∈ jsDedup l ↔ s ∈ l := by
  unfold jsDedup
  rw [mem_jsDedupAux]
  simp

lemma nodup_jsDedupAux (l : List String) : ∀ seen, (jsDedupAux seen l).Nodup := by
  induction l with
  | nil => intro seen; simp [jsDedupAux]
  | cons a l ih =>
    intro seen
    unfold jsDedupAux
    by_cases h : a ∈ seen
    · rw [if_pos h]; exact ih seen
    · rw [if_neg h]
      refine List.nodup_cons.mpr ⟨?_, ih (a :: seen)⟩
      intro hmem
      rw [mem_jsDedupAux] at hmem
      exact hmem.2 (List.mem_cons_self a seen)

/-! ## Claim theorems for the store adapter and filter builder. -/

/-- Claim C2: `insertEvent` persists a location exactly when both `lat` and
`lon` are non-null, building it from `(longitude, latitude)` in that order,
and the read-path decoding yields longitude/latitude that are jointly
non-null or jointly null. -/
theorem c2_location_joint (ev : EventInput) (loc : Option (ℚ × ℚ)) :
    ((insertEvent ev).location.isSome = (ev.lat.isSome && ev.lon.isSome))
      ∧ (∀ la lo : ℚ, ev.lat = some la → ev.lon = some lo →
          (insertEvent ev).location = some (lo, la))
      ∧ ((decodeLoc loc).1.isSome = (decodeLoc loc).2.isSome) := by
  refine ⟨?_, ?_, ?_⟩
  · cases hla : ev.lat <;> cases hlo : ev.lon <;> simp [insertEvent, hla, hlo]
  · intro la lo hla hlo
    simp [insertEvent, hla, hlo]
  · cases loc with
    | none => rfl
    | some p => cases p; rfl

/-- Witness for C2 at explicit coordinates `lat = 1`, `lon = 2`: the stored
point is `(2, 1)`, longitude first. -/
theorem c2_location_joint_witness :
    (insertEvent ⟨"Bar", "trivia", Option.none, Option.none, Option.none,
        some 1, some 2, "2024-01-01 18:00:00", Option.none⟩).location = some (2, 1) :=
  (c2_location_joint _ Option.none).2.1 1 2 rfl rfl

/-- Claim C3: the type set is the comma-split, trimmed, empty-dropped,
lower-cased, de-duplicated merge of `types=`, repeated `type=` and
`types[]=`; a non-empty set restricts matches to events whose lower-cased
type is a member, and an empty set imposes no restriction. -/
theorem c3_type_filter (q : EventsQuery) (ty : String) :
    (buildTypes q).Nodup
      ∧ (∀ s, s ∈ buildTypes q ↔
          s ∈ ((((q.types ++ q.type ++ q.typesArr).map (jsSplitChar ',')).flatten.map
                  jsTrim).filter (fun t => t ≠ "")).map jsToLower)
      ∧ (buildTypes q ≠ [] →
          (typeCond (buildTypes q) ty = true ↔ jsToLower ty ∈ buildTypes q))
      ∧ (buildTypes q = [] → typeCond (buildTypes q) ty = true) := by
  refine ⟨nodup_jsDedupAux _ [], fun s => mem_jsDedup s _, ?_, ?_⟩
  · intro hne
    unfold typeCond
    rcases hq : buildTypes q with _ | ⟨a, l⟩
    · exact absurd hq hne
    · simp
  · intro he
    unfold typeCond
    rw [he]
    simp

/-- Witness for C3 on the spec's example: `types=Trivia,drink deals` matches a
stored `type = "DRINK DEALS"` and does not match `type = "karaoke"`. -/
theorem c3_type_filter_witness :
    typeCond (buildTypes ⟨["Trivia,drink deals"], [], [], Option.none, Option.none,
        Option.none, Option.none, Option.none⟩) "DRINK DEALS" = true
      ∧ typeCond (buildTypes ⟨["Trivia,drink deals"], [], [], Option.none, Option.none,
        Option.none, Option.none, Option.none⟩) "karaoke" = false := by
  constructor
  · exact ((c3_type_filter ⟨["Trivia,drink deals"], [], [], Option.none, Option.none,
      Option.none, Option.none, Option.none⟩ "DRINK DEALS").2.2.1
        (by decide)).mpr (by decide)
  · decide

/-- The window table exactly as claim C4 states it: morning, afternoon and
evening buckets, with anytime, absent, and unrecognized values receiving the
full day (buckets read case-insensitively, as the handler lower-cases the
value before comparing). -/
def claimWindowTimes (tod : Option String) : String × String :=
  match tod with
  | Option.none => ("00:00:00", "23:59:59")
  | some t =>
    let tl := jsToLower t
    if tl = "morning" then ("05:00:00", "11:59:59")
    else if tl = "afternoon" then ("12:00:00", "16:59:59")
    else if tl = "evening" then ("17:00:00", "23:59:59")
    else ("00:00:00", "23:59:59")

/-- Claim C4: the date window is `[date 05:00:00, date 11:59:59]` for morning,
`[date 12:00:00, date 16:59:59]` for afternoon, `[date 17:00:00,
date 23:59:59]` for evening and the full day otherwise, and an event matches
the date filter exactly when its `start_time` lies within the window,
inclusive at both endpoints. -/
theorem c4_date_window (d st : String) (tod : Option String) :
    boundsFor d tod
        = (d ++ " " ++ (claimWindowTimes tod).1, d ++ " " ++ (claimWindowTimes tod).2)
      ∧ windowCond d tod st
          = (jsLe (d ++ " " ++ (claimWindowTimes tod).1) st
              && jsLe st (d ++ " " ++ (claimWindowTimes tod).2)) := by
  have hb : boundsFor d tod
      = (d ++ " " ++ (claimWindowTimes tod).1, d ++ " " ++ (claimWindowTimes tod).2) := by
    cases tod with
    | none => rfl
    | some t => rfl
  refine ⟨hb, ?_⟩
  unfold windowCond
  rw [hb]

/-- Claim C5: with no (truthy) `date` parameter the predicate forces
`start_time >= now`; with a date parameter the result does not depend on
`now` at all — the two restrictions are never combined. -/
theorem c5_future_only (q : EventsQuery) (now now1 now2 : String)
    (dw : ℚ × ℚ → Option ℚ × Option ℚ → Option ℚ → Bool) (st : EventRow) :
    (truthyO q.date = false →
        eventsWhere q now dw st = true → jsLe now st.start_time = true)
      ∧ (truthyO q.date = true →
        eventsWhere q now1 dw st = eventsWhere q now2 dw st) := by
  constructor
  · intro hd hev
    unfold eventsWhere at hev
    rw [Bool.and_eq_true, Bool.and_eq_true] at hev
    have hdate := hev.1.2
    unfold dateOrFutureCond at hdate
    rw [hd] at hdate
    simpa using hdate
  · intro hd
    unfold eventsWhere dateOrFutureCond
    rw [hd]
    simp

/-- Witness for C5: a dateless query only admits an event starting after
`now`. -/
theorem c5_future_only_witness :
    jsLe "2024-01-01 00:00:00"
      (EventRow.mk "Bar" "trivia" Option.none Option.none Option.none Option.none
        "2024-06-01 18:00:00" Option.none).start_time = true :=
  (c5_future_only ⟨[], [], [], Option.none, Option.none, Option.none, Option.none,
      Option.none⟩ "2024-01-01 00:00:00" "a" "b" (fun _ _ _ => true)
      (EventRow.mk "Bar" "trivia" Option.none Option.none Option.none Option.none
        "2024-06-01 18:00:00" Option.none)).1 rfl (by decide)

/-- Claim C6, counterexample: a request whose `lat` is the numerically
invalid `"abc"` (with truthy `lng` and `radius`) still gets the radius clause
appended — `parseFloat` validity is never consulted — and the clause then
excludes a null-location row that the claim, as stated, would admit. -/
theorem c6_radius_counterexample :
    radiusApplied ⟨[], [], [], some "abc", some "1", some "1", some "2024-06-01",
        Option.none⟩ = true
      ∧ parseFloatQ "abc" = Option.none
      ∧ eventsWhere ⟨[], [], [], some "abc", some "1", some "1", some "2024-06-01",
          Option.none⟩ "2000-01-01 00:00:00" (fun _ _ _ => true)
        ⟨"Bar", "trivia", Option.none, Option.none, Option.none, Option.none,
          "2024-06-01 12:00:00", Option.none⟩ = false := by
  refine ⟨rfl, rfl, ?_⟩
  decide

/-- Claim C6 (amended): the radius filter is applied iff `lat`, `lng` and
`radius` are all supplied and non-empty (their numeric validity is not
checked; an unparsable radius flows through as `NaN`); when applied, the
meters argument is the parsed radius multiplied by exactly 1609.34, and a row
with a null stored location never matches. -/
theorem c6_radius_amended (q : EventsQuery) (now : String) (st : EventRow) :
    radiusApplied q = (truthyO q.lat && truthyO q.lng && truthyO q.radius)
      ∧ (radiusApplied q = false →
          ∀ dw1 dw2, eventsWhere q now dw1 st = eventsWhere q now dw2 st)
      ∧ (∀ dw, radiusApplied q = true → st.location = Option.none →
          eventsWhere q now dw st = false)
      ∧ metersParam q = (parseFloatQ (q.radius.getD "")).map (fun r => r * (160934 / 100)) := by
  refine ⟨rfl, ?_, ?_, ?_⟩
  · intro hr dw1 dw2
    unfold eventsWhere radiusCond
    rw [hr]
    simp
  · intro dw hr hloc
    unfold eventsWhere radiusCond
    rw [hr, hloc]
    simp
  · simp only [metersParam, mileMeters,
      show (1609.34 : ℚ) = 160934 / 100 by norm_num]

/-- Witness for C6 (amended): a null-location row is excluded by an applied
radius filter even when the distance predicate would accept everything. -/
theorem c6_radius_amended_witness :
    eventsWhere ⟨[], [], [], some "35.2", some "-80.8", some "1", some "2024-06-01",
        Option.none⟩ "2000-01-01 00:00:00" (fun _ _ _ => true)
      ⟨"Bar", "trivia", Option.none, Option.none, Option.none, Option.none,
        "2024-06-01 12:00:00", Option.none⟩ = false :=
  (c6_radius_amended ⟨[], [], [], some "35.2", some "-80.8", some "1",
      some "2024-06-01", Option.none⟩ "2000-01-01 00:00:00"
      ⟨"Bar", "trivia", Option.none, Option.none, Option.none, Option.none,
        "2024-06-01 12:00:00", Option.none⟩).2.2.1 (fun _ _ _ => true) (by decide) rfl

/-- Claim C9: when the geo resolution lacks either coordinate, the `UPDATE`
leaves the stored location untouched while rewriting the seven scalar
columns; the location is rewritten (longitude first) only when both resolved
coordinates are present. -/
theorem c9_update_location_frame (inp : UpdateInput) (geoLat geoLon : Option ℚ)
    (row : EventRow) :
    ((geoLat = Option.none ∨ geoLon = Option.none) →
        (applyPut inp geoLat geoLon row).location = row.location)
      ∧ (∀ la lo : ℚ, geoLat = some la → geoLon = some lo →
          (applyPut inp geoLat geoLon row).location = some (lo, la))
      ∧ (applyPut inp geoLat geoLon row).name = inp.name
      ∧ (applyPut inp geoLat geoLon row).type = inp.type
      ∧ (applyPut inp geoLat geoLon row).description = orNull inp.description
      ∧ (applyPut inp geoLat geoLon row).address_name = orNull inp.address_name
      ∧ (applyPut inp geoLat geoLon row).address = orNull inp.address
      ∧ (applyPut inp geoLat geoLon row).start_time = inp.start_time
      ∧ (applyPut inp geoLat geoLon row).end_time = orNull inp.end_time := by
  refine ⟨?_, ?_, rfl, rfl, rfl, rfl, rfl, rfl, rfl⟩
  · rintro (h | h)
    · simp [applyPut, putSetLocation, h]
    · cases geoLat <;> simp [applyPut, putSetLocation, h]
  · intro la lo h1 h2
    simp [applyPut, putSetLocation, h1, h2]

/-- Witness for C9: a failed geo resolution (`lat` null) keeps the previously
stored point `(5, 6)`. -/
theorem c9_update_location_frame_witness :
    (applyPut ⟨"B", "t", Option.none, Option.none, Option.none,
        "2024-01-01 10:00:00", Option.none⟩ Option.none (some 3)
      ⟨"A", "u", Option.none, Option.none, Option.none, some (5, 6),
        "2023-01-01 10:00:00", Option.none⟩).location = some (5, 6) :=
  (c9_update_location_frame ⟨"B", "t", Option.none, Option.none, Option.none,
      "2024-01-01 10:00:00", Option.none⟩ Option.none (some 3)
      ⟨"A", "u", Option.none, Option.none, Option.none, some (5, 6),
        "2023-01-01 10:00:00", Option.none⟩).1 (Or.inl rfl)

/-- Unfolding of the import handler once the body is known to have a first
non-empty line. -/
lemma importResp_cons (instCount : List String → String → Nat) (body h : String)
    (rest : List String) (hfl : filteredLines body = h :: rest) :
    importResp instCount body
      = match requiredCols.find? (fun r => !((parseHeader h).contains r)) with
        | some r => .badRequest ("Missing column: " ++ r)
        | Option.none => .ok ((rest.map (instCount (parseHeader h))).sum) := by
  unfold importResp
  rw [hfl]

/-- Claim C10: the import answers 400 "Empty CSV" exactly when the body has
no non-empty line; the outcome depends only on the non-empty lines (blank
lines anywhere are skipped, never records or errors); and a body whose only
non-empty line is a header with all required columns succeeds with zero
insertions. -/
theorem c10_import_empty (instCount : List String → String → Nat) (body : String) :
    (importResp instCount body = .badRequest "Empty CSV" ↔
        ∀ l ∈ splitLines body, l = "")
      ∧ (∀ body2, filteredLines body = filteredLines body2 →
          importResp instCount body = importResp instCount body2)
      ∧ (∀ h, filteredLines body = [h] →
          (∀ r ∈ requiredCols, (parseHeader h).contains r = true) →
          importResp instCount body = .ok 0) := by
  have hiff : filteredLines body = [] ↔ ∀ l ∈ splitLines body, l = "" := by
    unfold filteredLines
    rw [List.filter_eq_nil_iff]
    constructor
    · intro hf l hl
      simpa using hf l hl
    · intro hf l hl
      simpa using hf l hl
  refine ⟨?_, ?_, ?_⟩
  · constructor
    · intro hbr
      rw [← hiff]
      rcases hfl : filteredLines body with _ | ⟨h, rest⟩
      · rfl
      · rw [importResp_cons instCount body h rest hfl] at hbr
        rcases hfind : requiredCols.find? (fun r => !((parseHeader h).contains r))
            with _ | r
        · rw [hfind] at hbr
          simp at hbr
        · rw [hfind] at hbr
          have hr : r ∈ requiredCols := List.mem_of_find?_eq_some hfind
          simp only [requiredCols, List.mem_cons, List.not_mem_nil, or_false] at hr
          simp only [ImportResp.badRequest.injEq] at hbr
          rcases hr with rfl | rfl | rfl
          · exact absurd hbr (by decide)
          · exact absurd hbr (by decide)
          · exact absurd hbr (by decide)
    · intro hall
      unfold importResp
      rw [hiff.mpr hall]
  · intro body2 heq
    unfold importResp
    rw [heq]
  · intro h hfl hcols
    have hfind : requiredCols.find? (fun r => !((parseHeader h).contains r))
        = Option.none := by
      rw [List.find?_eq_none]
      intro r hr
      rw [hcols r hr]
      decide
    rw [importResp_cons instCount body h [] hfl, hfind]
    rfl

/-- Witness for C10: a body holding one valid header line and a trailing
blank line imports successfully with zero insertions. -/
theorem c10_import_empty_witness :
    importResp (fun _ _ => 0) "name,type,start_time\n\n" = ImportResp.ok 0 :=
  (c10_import_empty (fun _ _ => 0) "name,type,start_time\n\n").2.2
    "name,type,start_time" (by decide) (by decide)

end BarDeals
